import Mathlib

/-!
Verification of the sillyvpn network-sandbox helper and process locator.

The definitions below are a shallow embedding of the Rust sources:
  src-tauri/src/bin/sillyvpn-helper.rs  (config sanitizer, enable/disable
    lifecycle, DNS setup, environment filtering)
  src-tauri/src/commands.rs             (namespace-scoped process locator)

A file's content is represented as its list of lines (the Rust code reads
whole files and iterates `lines()`).  The Rust string primitives (`trim`,
`to_ascii_lowercase`, `splitn`, `split`, `replace`, `starts_with`) are
embedded as structurally recursive functions on `List Char` so that every
definition evaluates inside the kernel; each is documented with the Rust
operation it implements.  Effectful code (external commands, filesystem
writes) is embedded as a small state monad that records a trace of
attempted actions and consults a failure oracle, so rollback and
best-effort behaviour can be stated and proved for every possible pattern
of external failures.
-/

namespace SillyVPN

/-! ### Rust string primitives on lists of characters -/

/-- Rust `char::to_ascii_lowercase`: map only the ASCII uppercase range. -/
def lowerAscii (c : Char) : Char :=
  if c.isUpper then Char.ofNat (c.toNat + 32) else c

/-- Rust `str::trim`: drop whitespace from both ends. -/
def trimChars (l : List Char) : List Char :=
  ((l.dropWhile Char.isWhitespace).reverse.dropWhile Char.isWhitespace).reverse

/-- Rust `str::trim` lifted to strings. -/
def strTrim (s : String) : String := String.mk (trimChars s.data)

/-- Rust `str::to_ascii_lowercase` lifted to strings. -/
def strLower (s : String) : String := String.mk (s.data.map lowerAscii)

/-- Rust `str::starts_with` on character lists (first argument is the
string, second the pattern). -/
def listStarts : List Char → List Char → Bool
  | _, [] => true
  | [], _ :: _ => false
  | c :: cs, p :: ps => c == p && listStarts cs ps

/-- Rust `str::starts_with` lifted to strings. -/
def strStarts (s pat : String) : Bool := listStarts s.data pat.data

/-- Rust `s.splitn(2, '=')`: split at the first `=` only; `none` when the
string has no `=` (the second part is absent). -/
def splitAtFirstEq : List Char → Option (List Char × List Char)
  | [] => none
  | c :: rest =>
    if c == '=' then some ([], rest)
    else
      match splitAtFirstEq rest with
      | none => none
      | some (a, b) => some (c :: a, b)

/-- Rust `str::split(pred)`: cut at every separator, keeping empty pieces
(adjacent separators or separators at either end yield empty pieces). -/
def splitList (p : Char → Bool) : List Char → List (List Char)
  | [] => [[]]
  | c :: rest =>
    if p c then [] :: splitList p rest
    else
      match splitList p rest with
      | [] => [[c]]
      | g :: gs => (c :: g) :: gs

/-! ### Fixed constants (sillyvpn-helper.rs, lines 7-17) -/

def NS_NAME : String := "sillyvpn-ns"
def VETH_HOST : String := "svpn0"
def VETH_NS : String := "svpn1"
def VETH_HOST_IP : String := "10.200.0.1/24"
def VETH_NS_IP : String := "10.200.0.2/24"
def VETH_SUBNET : String := "10.200.0.0/24"
def TABLE_ID : String := "51820"
def FWMARK : String := "0x51"
def TEMP_CONFIG : String := "/run/sillyvpn/wg-temp.conf"

/-- Interface name derived in `enable` as the file stem of the fixed
temporary config path `/run/sillyvpn/wg-temp.conf` (helper lines 94-98). -/
def WG_IFNAME : String := "wg-temp"

/-! ### Config sanitizer (helper lines 389-424) and DNS extraction (569-589) -/

/-- Helper lines 405-406 and 572-574: a line is a DNS directive when its
trimmed, ASCII-lowercased form starts with `dns=` or `dns =`. -/
def isDnsLine (line : String) : Bool :=
  let lower := strLower (strTrim line)
  strStarts lower "dns=" || strStarts lower "dns ="

/-- Helper lines 581-584: split the right-hand side of a DNS directive on
commas and whitespace, dropping empty pieces. -/
def dnsSplitValues (rhs : List Char) : List String :=
  ((splitList (fun c => c == ',' || c.isWhitespace) rhs).filter
    (fun s => !(s.isEmpty))).map String.mk

/-- Body of the extraction loop for one DNS line (helper lines 577-586):
split the trimmed line at the first `=`; when there is no right-hand side
the line contributes nothing, otherwise its comma/whitespace separated
values. -/
def dnsLineValues (line : String) : List String :=
  match splitAtFirstEq (strTrim line).data with
  | some (_, rhs) => dnsSplitValues rhs
  | none => []

/-- `extract_dns_servers` (helper lines 569-589): walk the lines in
order, skipping non-DNS lines, and append each DNS line's values. -/
def extract_dns_servers : List String → List String
  | [] => []
  | line :: rest =>
    if isDnsLine line then dnsLineValues line ++ extract_dns_servers rest
    else extract_dns_servers rest

/-- Helper lines 396-399: some line, trimmed, with every space removed
(Rust `replace(' ', "")`) and ASCII-lowercased, equals `table=off`. -/
def has_table_off (content : List String) : Bool :=
  content.any (fun line =>
    String.mk (((trimChars line.data).filter (fun c => !(c == ' '))).map lowerAscii)
      == "table=off")

/-- The output loop of `sanitize_config` (helper lines 401-417): DNS
lines are dropped; every other line is kept; after the first line whose
trimmed form is `[Interface]`, a `Table = off` line is added unless the
original content already had a `table=off` directive; the inserted flag
is set either way. -/
def sanitizeGo (hasTable : Bool) (inserted : Bool) : List String → List String
  | [] => []
  | line :: rest =>
    if isDnsLine line then sanitizeGo hasTable inserted rest
    else if inserted == false && strTrim line == "[Interface]" then
      if hasTable then line :: sanitizeGo hasTable true rest
      else line :: "Table = off" :: sanitizeGo hasTable true rest
    else line :: sanitizeGo hasTable inserted rest

/-- `sanitize_config`'s line transformation (helper lines 389-419), from
original content lines to output lines. -/
def sanitize_lines (content : List String) : List String :=
  sanitizeGo (has_table_off content) false content

/-- Specification-side description of the insertion: put a single
`Table = off` line immediately after the first line whose trimmed form is
`[Interface]` (no insertion when no such line exists). -/
def insert_after_interface : List String → List String
  | [] => []
  | line :: rest =>
    if strTrim line == "[Interface]" then line :: "Table = off" :: rest
    else line :: insert_after_interface rest

/-! ### Namespace resolver file (helper lines 554-567) -/

/-- `setup_dns_for_namespace` resolver-file content: with no extracted
servers the two fixed public fallbacks, otherwise one `nameserver` line
accumulated per server in order (the Rust loop pushes onto a string). -/
def resolv_conf_content (dns : List String) : String :=
  if dns.isEmpty then "nameserver 1.1.1.1\nnameserver 8.8.8.8\n"
  else dns.foldl (fun acc s => acc ++ ("nameserver " ++ s ++ "\n")) ""

/-- Specification-side description of a resolver block: exactly one
`nameserver` line per listed address, in order. -/
def nameserverBlock : List String → String
  | [] => ""
  | s :: rest => "nameserver " ++ s ++ "\n" ++ nameserverBlock rest

/-! ### Effect model for the helper lifecycle (enable / disable)

External commands and filesystem writes are embedded as actions recorded
in a trace.  A failure oracle maps the position of an action in the run
to `none` (the action succeeds) or `some e` (it fails with error `e`),
so every theorem below quantifies over all possible failure patterns of
the external tools and filesystem. -/

/-- Persisted session record (helper struct `HelperState`, lines 19-25). -/
structure HelperState where
  wg_ifname : String
  config_path : String
  temp_config : String
  ip_forward_prev : String
deriving DecidableEq, Repr

/-- One attempted external effect.  `cmd` is a `run_cmd` invocation with
its program and argument list; the remaining constructors are the
helper's direct filesystem operations. -/
inductive Action where
  | cmd (prog : String) (args : List String)
  | createStateDir
  | readConfig
  | writeTempConfig (lines : List String)
  | readTempMeta
  | setTempPerms
  | readIpForward
  | writeIpForward (value : String)
  | mkNetnsEtcDir
  | writeResolv (content : String)
  | writeStateFile (st : HelperState)
  | removeResolv
  | removeNetnsDir
  | removeStateFile
deriving DecidableEq, Repr

/-- Execution state: the index of the next action and the trace of all
actions attempted so far, in order. -/
structure ExecState where
  idx : Nat
  trace : List Action
deriving DecidableEq, Repr

/-- Failure oracle: which action positions fail, and with what error. -/
def Oracle : Type := Nat → Option String

/-- The helper computation monad: state plus string errors, with the
state (the action trace) preserved across errors. -/
def HelperM (α : Type) : Type := ExecState → Except String α × ExecState

instance : Monad HelperM where
  pure a := fun s => (Except.ok a, s)
  bind x f := fun s =>
    match x s with
    | (Except.ok a, s') => f a s'
    | (Except.error e, s') => (Except.error e, s')

/-- Attempt one action: always record it, then succeed or fail as the
oracle dictates for its position. -/
def act (o : Oracle) (a : Action) : HelperM Unit := fun s =>
  ((match o s.idx with
    | none => Except.ok ()
    | some e => Except.error e),
   ⟨s.idx + 1, s.trace ++ [a]⟩)

/-- Rust `let _ = ...`: run the computation and discard its outcome. -/
def best (x : HelperM Unit) : HelperM Unit := fun s => (Except.ok (), (x s).2)

/-- Rust `return Err(e)`. -/
def hthrow (e : String) : HelperM Unit := fun s => (Except.error e, s)

/-- The catch used by `enable` around its transactional closure (helper
lines 221-268): on failure run the handler. -/
def hcatch (x : HelperM Unit) (f : String → HelperM Unit) : HelperM Unit := fun s =>
  match x s with
  | (Except.ok a, s') => (Except.ok a, s')
  | (Except.error e, s') => f e s'

/-- `run_cmd` (helper lines 426-439) as an oracle-controlled action. -/
def run_cmdM (o : Oracle) (prog : String) (args : List String) : HelperM Unit :=
  act o (Action.cmd prog args)

/-- `cleanup_dns_for_namespace` (helper lines 591-595): both removals are
swallowed inside the function, which always returns success. -/
def cleanup_dnsM (o : Oracle) : HelperM Unit := do
  best (act o Action.removeResolv)
  best (act o Action.removeNetnsDir)

/-- `cleanup_best_effort` (helper lines 548-552). -/
def cleanup_best_effortM (o : Oracle) : HelperM Unit := do
  best (run_cmdM o "ip" ["link", "del", VETH_HOST])
  best (run_cmdM o "ip" ["netns", "del", NS_NAME])
  cleanup_dnsM o

/-- The transactional body of `enable` (helper lines 106-219): namespace,
namespace DNS, veth pair, addresses, routes, tunnel up, policy rule,
table route, firewall rules, session persistence.  Any failure aborts
the remainder. -/
def enableBody (o : Oracle) (cfgPath : String) (content : List String)
    (prev : String) : HelperM Unit := do
  run_cmdM o "ip" ["netns", "add", NS_NAME]
  act o Action.mkNetnsEtcDir
  act o (Action.writeResolv (resolv_conf_content (extract_dns_servers content)))
  run_cmdM o "ip" ["link", "add", VETH_HOST, "type", "veth", "peer", "name", VETH_NS]
  run_cmdM o "ip" ["link", "set", VETH_NS, "netns", NS_NAME]
  run_cmdM o "ip" ["addr", "add", VETH_HOST_IP, "dev", VETH_HOST]
  run_cmdM o "ip" ["link", "set", VETH_HOST, "up"]
  run_cmdM o "ip" ["netns", "exec", NS_NAME, "ip", "addr", "add", VETH_NS_IP, "dev", VETH_NS]
  run_cmdM o "ip" ["netns", "exec", NS_NAME, "ip", "link", "set", VETH_NS, "up"]
  run_cmdM o "ip" ["netns", "exec", NS_NAME, "ip", "route", "add", "default", "via", "10.200.0.1"]
  run_cmdM o "wg-quick" ["up", TEMP_CONFIG]
  run_cmdM o "ip" ["rule", "add", "fwmark", FWMARK, "table", TABLE_ID]
  run_cmdM o "ip" ["route", "add", "default", "dev", WG_IFNAME, "table", TABLE_ID]
  run_cmdM o "iptables" ["-t", "mangle", "-A", "PREROUTING", "-i", VETH_HOST,
    "-j", "MARK", "--set-mark", FWMARK]
  run_cmdM o "iptables" ["-A", "FORWARD", "-i", VETH_HOST, "-o", WG_IFNAME, "-j", "ACCEPT"]
  run_cmdM o "iptables" ["-A", "FORWARD", "-i", WG_IFNAME, "-o", VETH_HOST, "-j", "ACCEPT"]
  run_cmdM o "iptables" ["-t", "nat", "-A", "POSTROUTING", "-s", VETH_SUBNET,
    "-o", WG_IFNAME, "-j", "MASQUERADE"]
  act o (Action.writeStateFile ⟨WG_IFNAME, cfgPath, TEMP_CONFIG, prev⟩)

/-- The rollback run by `enable` when its transactional body fails
(helper lines 221-267): best-effort cleanup of namespace, veth and
resolver file, a second resolver cleanup, restore of the prior
IP-forwarding value, deletion of the two FORWARD rules and the NAT rule,
and tunnel down.  Every step is wrapped in `let _ =`. -/
def rollbackM (o : Oracle) (prev : String) : HelperM Unit := do
  cleanup_best_effortM o
  cleanup_dnsM o
  best (act o (Action.writeIpForward prev))
  best (run_cmdM o "iptables" ["-D", "FORWARD", "-i", VETH_HOST, "-o", WG_IFNAME, "-j", "ACCEPT"])
  best (run_cmdM o "iptables" ["-D", "FORWARD", "-i", WG_IFNAME, "-o", VETH_HOST, "-j", "ACCEPT"])
  best (run_cmdM o "iptables" ["-t", "nat", "-D", "POSTROUTING", "-s", VETH_SUBNET,
    "-o", WG_IFNAME, "-j", "MASQUERADE"])
  best (run_cmdM o "wg-quick" ["down", TEMP_CONFIG])

/-- `enable` (helper lines 86-271).  `cfgExists` is whether the config
path exists; `content` is the config file's lines; `prev` is the value
read from the IP-forwarding flag.  The pre-body sequence is: state dir
creation, the sanitizer's read / write / chmod of the temp config, the
forwarding-flag read and enable, and the best-effort pre-clean of stale
veth and namespace; then the transactional body under rollback. -/
def enable (o : Oracle) (cfgExists : Bool) (cfgPath : String)
    (content : List String) (prev : String) : HelperM Unit :=
  if cfgExists then do
    act o Action.createStateDir
    act o Action.readConfig
    act o (Action.writeTempConfig (sanitize_lines content))
    act o Action.readTempMeta
    act o Action.setTempPerms
    act o Action.readIpForward
    act o (Action.writeIpForward "1")
    best (run_cmdM o "ip" ["link", "del", VETH_HOST])
    best (run_cmdM o "ip" ["netns", "del", NS_NAME])
    hcatch (enableBody o cfgPath content prev) (fun err => do
      rollbackM o prev
      hthrow err)
  else hthrow "config does not exist"

/-- `disable` (helper lines 273-349).  `st` is the outcome of
`read_state` (helper lines 533-546): `Except.error` when the state file
cannot be opened, read, or parsed as JSON, `Except.ok` with the session
otherwise.  With no session only the fixed best-effort cleanup runs.
With a session every removal is wrapped in `let _ =`; only the
forwarding-flag restore propagates its error, and the state file is
removed (best-effort) after a successful restore. -/
def disable (o : Oracle) (st : Except String HelperState) : HelperM Unit := do
  match st with
  | Except.error _ => cleanup_best_effortM o
  | Except.ok state => do
    best (run_cmdM o "iptables" ["-t", "mangle", "-D", "PREROUTING", "-i", VETH_HOST,
      "-j", "MARK", "--set-mark", FWMARK])
    best (run_cmdM o "iptables" ["-D", "FORWARD", "-i", VETH_HOST,
      "-o", state.wg_ifname, "-j", "ACCEPT"])
    best (run_cmdM o "iptables" ["-D", "FORWARD", "-i", state.wg_ifname,
      "-o", VETH_HOST, "-j", "ACCEPT"])
    best (run_cmdM o "iptables" ["-t", "nat", "-D", "POSTROUTING", "-s", VETH_SUBNET,
      "-o", state.wg_ifname, "-j", "MASQUERADE"])
    best (run_cmdM o "ip" ["rule", "del", "fwmark", FWMARK, "table", TABLE_ID])
    best (run_cmdM o "ip" ["route", "del", "default", "dev", state.wg_ifname,
      "table", TABLE_ID])
    best (run_cmdM o "wg-quick" ["down", state.temp_config])
    cleanup_best_effortM o
    act o (Action.writeIpForward state.ip_forward_prev)
    best (act o Action.removeStateFile)

/-- The actions `enable` attempts before its transactional body (with
the pre-clean of stale veth and namespace). -/
def enableSetupTrace (content : List String) : List Action :=
  [Action.createStateDir, Action.readConfig,
   Action.writeTempConfig (sanitize_lines content), Action.readTempMeta,
   Action.setTempPerms, Action.readIpForward, Action.writeIpForward "1",
   Action.cmd "ip" ["link", "del", VETH_HOST],
   Action.cmd "ip" ["netns", "del", NS_NAME]]

/-- The fixed action list of `enable`'s rollback, in order. -/
def rollbackActions (prev : String) : List Action :=
  [Action.cmd "ip" ["link", "del", VETH_HOST],
   Action.cmd "ip" ["netns", "del", NS_NAME],
   Action.removeResolv, Action.removeNetnsDir,
   Action.removeResolv, Action.removeNetnsDir,
   Action.writeIpForward prev,
   Action.cmd "iptables" ["-D", "FORWARD", "-i", VETH_HOST, "-o", WG_IFNAME, "-j", "ACCEPT"],
   Action.cmd "iptables" ["-D", "FORWARD", "-i", WG_IFNAME, "-o", VETH_HOST, "-j", "ACCEPT"],
   Action.cmd "iptables" ["-t", "nat", "-D", "POSTROUTING", "-s", VETH_SUBNET,
     "-o", WG_IFNAME, "-j", "MASQUERADE"],
   Action.cmd "wg-quick" ["down", TEMP_CONFIG]]

/-- The fixed action list of the no-session cleanup path of `disable`. -/
def cleanupActions : List Action :=
  [Action.cmd "ip" ["link", "del", VETH_HOST],
   Action.cmd "ip" ["netns", "del", NS_NAME],
   Action.removeResolv, Action.removeNetnsDir]

/-- The actions `disable` attempts with a session, up to and including
the forwarding-flag restore (positions 0 through 11). -/
def disableBase (st : HelperState) : List Action :=
  [Action.cmd "iptables" ["-t", "mangle", "-D", "PREROUTING", "-i", VETH_HOST,
     "-j", "MARK", "--set-mark", FWMARK],
   Action.cmd "iptables" ["-D", "FORWARD", "-i", VETH_HOST, "-o", st.wg_ifname, "-j", "ACCEPT"],
   Action.cmd "iptables" ["-D", "FORWARD", "-i", st.wg_ifname, "-o", VETH_HOST, "-j", "ACCEPT"],
   Action.cmd "iptables" ["-t", "nat", "-D", "POSTROUTING", "-s", VETH_SUBNET,
     "-o", st.wg_ifname, "-j", "MASQUERADE"],
   Action.cmd "ip" ["rule", "del", "fwmark", FWMARK, "table", TABLE_ID],
   Action.cmd "ip" ["route", "del", "default", "dev", st.wg_ifname, "table", TABLE_ID],
   Action.cmd "wg-quick" ["down", st.temp_config],
   Action.cmd "ip" ["link", "del", VETH_HOST],
   Action.cmd "ip" ["netns", "del", NS_NAME],
   Action.removeResolv, Action.removeNetnsDir,
   Action.writeIpForward st.ip_forward_prev]

/-! ### Environment filtering for launched processes
(helper lines 351-387, 441-467; commands.rs lines 375-396) -/

/-- `allowed_env_key` (helper lines 454-467): the fixed allow-list. -/
def allowed_env_key (key : String) : Bool :=
  key == "DISPLAY" || key == "WAYLAND_DISPLAY" || key == "XAUTHORITY" ||
  key == "XDG_RUNTIME_DIR" || key == "DBUS_SESSION_BUS_ADDRESS" ||
  key == "HOME" || key == "USER" || key == "LOGNAME" || key == "PATH"

/-- The key of an `--env KEY=VALUE` argument: the part before the first
`=` (the whole string when there is none), trimmed (helper line 443). -/
def envKey (pair : String) : String :=
  match splitAtFirstEq pair.data with
  | none => String.mk (trimChars pair.data)
  | some (k, _) => String.mk (trimChars k)

/-- The value of an `--env` argument: the part after the first `=`, or
empty when there is none (helper line 444). -/
def envValue (pair : String) : String :=
  match splitAtFirstEq pair.data with
  | none => ""
  | some (_, v) => String.mk v

/-- `parse_env_pair` (helper lines 441-452): error on an empty key, drop
pairs whose key is not allow-listed, keep the rest. -/
def parse_env_pair (pair : String) : Except String (Option (String × String)) :=
  if envKey pair == "" then Except.error "empty env key"
  else if !(allowed_env_key (envKey pair)) then Except.ok none
  else Except.ok (some (envKey pair, envValue pair))

/-- The argument loop of the `run` command (helper lines 53-76):
collects `--bin` values and the `--env` pairs that survive
`parse_env_pair`; any parse error or unknown argument aborts. -/
def parse_run_args : List String → List String → List (String × String) →
    Except String (List String × List (String × String))
  | [], bins, envs => Except.ok (bins, envs)
  | arg :: rest, bins, envs =>
    if arg == "--bin" then
      match rest with
      | [] => Except.error "--bin missing value"
      | v :: rest2 => parse_run_args rest2 (bins ++ [v]) envs
    else if arg == "--env" then
      match rest with
      | [] => Except.error "--env missing value"
      | pair :: rest2 =>
        match parse_env_pair pair with
        | Except.error e => Except.error e
        | Except.ok none => parse_run_args rest2 bins envs
        | Except.ok (some kv) => parse_run_args rest2 bins (envs ++ [kv])
    else Except.error ("unknown argument: " ++ arg)

/-- Insert or override one variable in an environment, modelled as an
association list. -/
def upsertEnv : List (String × String) → String → String → List (String × String)
  | [], k, v => [(k, v)]
  | kv :: rest, k, v => if kv.1 == k then (k, v) :: rest else kv :: upsertEnv rest k v

/-- The environment of the process spawned by `run_in_namespace` (helper
lines 379-385), following the semantics of Rust `std::process::Command`:
the child inherits the helper process's own environment (the code never
calls `env_clear`), and each `cmd.env(key, value)` call inserts or
overrides that one variable. -/
def spawned_env (helperEnv : List (String × String))
    (envs : List (String × String)) : List (String × String) :=
  envs.foldl (fun acc kv => upsertEnv acc kv.1 kv.2) helperEnv

/-! ### Namespace-scoped process locator (commands.rs lines 193-373) -/

/-- One `/proc` directory entry as the locator reads it: the directory
name, the `exe` symlink target (`none` when unreadable), the
null-separated non-empty `cmdline` arguments (`none` when unreadable),
the `comm` short name (`none` when unreadable), and the inode of
`ns/net` (`none` when its metadata is unreadable). -/
structure ProcEntry where
  dirName : String
  exe : Option String
  cmdline : Option (List String)
  comm : Option String
  netns : Option Nat
deriving DecidableEq, Repr

/-- Rust `Path::file_name` of a path string: its last normal component
(`none` for an empty path, a root, or a path ending in `..`; `.` and
empty components are ignored). -/
def path_file_name (s : String) : Option String :=
  match (((splitList (fun c => c == '/') s.data).map String.mk).filter
      (fun c => !(c == "") && !(c == "."))).getLast? with
  | none => none
  | some c => if c == ".." then none else some c

/-- commands.rs lines 199-205 and parallels: the canonical target's base
file name, or empty when it has none. -/
def targetBaseOf (target : String) : String := (path_file_name target).getD ""

/-- `process_matches_path` (commands.rs lines 301-351): exact `exe`
symlink match, else any `cmdline` argument equal to the target verbatim
or (for a non-empty base) whose own base name equals the target's base
exactly or case-insensitively, else (for a non-empty base) a `comm`
match, exact or case-insensitive. -/
def process_matches_path (p : ProcEntry) (target targetBase targetBaseLower : String) :
    Bool :=
  (match p.exe with
   | some link => link == target
   | none => false)
  ||
  (match p.cmdline with
   | some args =>
     args.any (fun arg =>
       arg == target ||
       ((!(targetBase == "")) &&
         (match path_file_name arg with
          | some base => base == targetBase || strLower base == targetBaseLower
          | none => false)))
   | none => false)
  ||
  ((!(targetBase == "")) &&
    (match p.comm with
     | some comm => strTrim comm == targetBase || strLower (strTrim comm) == targetBaseLower
     | none => false))

/-- `process_in_namespace` (commands.rs lines 367-373): the process's
net-namespace inode equals the resolved one; unreadable metadata counts
as not in the namespace. -/
def process_in_namespace (p : ProcEntry) (ino : Nat) : Bool :=
  match p.netns with
  | some i => i == ino
  | none => false

/-- The `/proc` entry-name filter (commands.rs lines 178, 216, 260):
every character an ASCII digit (vacuously true for an empty name). -/
def isNumericName (s : String) : Bool := s.data.all (fun c => c.isDigit)

/-- Rust `pid_str.parse::<i32>()` on an all-digit string: fails on the
empty string and on overflow past `i32::MAX`. -/
def parse_i32 (s : String) : Option Nat :=
  if s.data.isEmpty then none
  else if s.data.foldl (fun acc c => acc * 10 + (c.toNat - 48)) 0 ≤ 2147483647 then
    some (s.data.foldl (fun acc c => acc * 10 + (c.toNat - 48)) 0)
  else none

/-- The scan loop of `is_app_running_in_namespace` (commands.rs lines
206-233): skip non-numeric entries, then entries outside the namespace,
then entries that do not match the path; stop at the first match. -/
def runningLoop (ino : Nat) (t b lb : String) : List ProcEntry → Bool
  | [] => false
  | p :: rest =>
    if isNumericName p.dirName then
      if process_in_namespace p ino then
        if process_matches_path p t b lb then true
        else runningLoop ino t b lb rest
      else runningLoop ino t b lb rest
    else runningLoop ino t b lb rest

/-- `is_app_running_in_namespace` (commands.rs lines 193-234).  `nsMeta`
is the outcome of `read_netns_inode` (lines 353-365): `ok none` when the
namespace mount entry does not exist, `ok (some inode)` when it does,
`error` for any other metadata failure.  `canon` is the outcome of
canonicalizing the target path. -/
def is_app_running_in_namespace (nsMeta : Except String (Option Nat))
    (canon : Except String String) (procs : List ProcEntry) : Except String Bool :=
  match nsMeta with
  | Except.error e => Except.error e
  | Except.ok none => Except.ok false
  | Except.ok (some ino) =>
    match canon with
    | Except.error e => Except.error e
    | Except.ok target =>
      Except.ok (runningLoop ino target (targetBaseOf target)
        (strLower (targetBaseOf target)) procs)

/-- The pid-collection loop of `kill_by_path_in_namespace` (commands.rs
lines 250-279): skip non-numeric names, unparsable pids, entries that do
not match the path, and entries outside the namespace. -/
def collectPids (ino : Nat) (t b lb : String) : List ProcEntry → List Nat
  | [] => []
  | p :: rest =>
    if isNumericName p.dirName then
      match parse_i32 p.dirName with
      | none => collectPids ino t b lb rest
      | some pid =>
        if process_matches_path p t b lb then
          if process_in_namespace p ino then pid :: collectPids ino t b lb rest
          else collectPids ino t b lb rest
        else collectPids ino t b lb rest
    else collectPids ino t b lb rest

/-- Result of `kill_by_path_in_namespace`: the returned count, the pids
sent the graceful SIGTERM, and the pids sent the forceful SIGKILL after
the 300 ms grace period. -/
structure KillResult where
  count : Nat
  sigterms : List Nat
  sigkills : List Nat
deriving DecidableEq, Repr

/-- `kill_by_path_in_namespace` (commands.rs lines 236-299).  `alive`
tells which pids still have a live `/proc` entry after the grace period:
SIGTERM goes to every collected pid, SIGKILL only to those still alive,
and the returned count is the number of collected pids. -/
def kill_by_path_in_namespace (nsMeta : Except String (Option Nat))
    (canon : Except String String) (procs : List ProcEntry)
    (alive : Nat → Bool) : Except String KillResult :=
  match nsMeta with
  | Except.error e => Except.error e
  | Except.ok none => Except.ok ⟨0, [], []⟩
  | Except.ok (some ino) =>
    match canon with
    | Except.error e => Except.error e
    | Except.ok target =>
      match collectPids ino target (targetBaseOf target)
          (strLower (targetBaseOf target)) procs with
      | [] => Except.ok ⟨0, [], []⟩
      | pids => Except.ok ⟨pids.length, pids, pids.filter alive⟩

/-- Specification-side description of the pids `kill` signals: those of
numeric `/proc` entries that match the target path and live in the
resolved namespace. -/
def killCandidates (ino : Nat) (target : String) (procs : List ProcEntry) : List Nat :=
  procs.filterMap (fun p =>
    if isNumericName p.dirName
        && process_matches_path p target (targetBaseOf target) (strLower (targetBaseOf target))
        && process_in_namespace p ino
    then parse_i32 p.dirName else none)

/-- Oracle failing exactly at the first transactional step of `enable`
(the `ip netns add`, position 9). -/
def oracleFailNsAdd : Oracle := fun i => if i == 9 then some "ip netns add failed" else none

/-- Oracle failing exactly at the session-persistence step of `enable`
(position 26), after every command of the body has succeeded. -/
def oracleFailPersist : Oracle := fun i => if i == 26 then some "state write failed" else none

/-- A small wg-quick style config used as concrete input. -/
def cexEnableContent : List String :=
  ["[Interface]", "Address=10.0.0.2/32", "DNS=9.9.9.9", "[Peer]"]

/-! ### Lemmas about the sanitizer -/

theorem isDnsLine_table_off : isDnsLine "Table = off" = false := rfl

theorem strAppend_assoc (a b c : String) : a ++ b ++ c = a ++ (b ++ c) := by
  cases a with
  | mk la =>
    cases b with
    | mk lb =>
      cases c with
      | mk lc =>
        show String.mk (la ++ lb ++ lc) = String.mk (la ++ (lb ++ lc))
        rw [List.append_assoc]

theorem strAppend_empty (a : String) : a ++ "" = a := by
  cases a with
  | mk la =>
    show String.mk (la ++ []) = String.mk la
    rw [List.append_nil]

theorem sanitizeGo_all_not_dns (ht : Bool) (l : List String) : ∀ ins : Bool,
    (sanitizeGo ht ins l).all (fun s => !(isDnsLine s)) = true := by
  induction l with
  | nil => intro ins; rfl
  | cons line rest ih =>
    intro ins
    cases hd : isDnsLine line with
    | true => simpa [sanitizeGo, hd] using ih ins
    | false =>
      cases ins with
      | true => simp [sanitizeGo, hd, ih true]
      | false =>
        cases hif : (strTrim line == "[Interface]") with
        | false => simp [sanitizeGo, hd, hif, ih false]
        | true =>
          cases ht with
          | true => simp [sanitizeGo, hd, hif, ih true]
          | false => simp [sanitizeGo, hd, hif, ih true, isDnsLine_table_off]

theorem sanitizeGo_hasTable (l : List String) : ∀ ins : Bool,
    sanitizeGo true ins l = l.filter (fun s => !(isDnsLine s)) := by
  induction l with
  | nil => intro ins; rfl
  | cons line rest ih =>
    intro ins
    cases hd : isDnsLine line with
    | true => simp [sanitizeGo, hd, List.filter_cons, ih ins]
    | false =>
      cases ins with
      | true => simp [sanitizeGo, hd, List.filter_cons, ih true]
      | false =>
        cases hif : (strTrim line == "[Interface]") with
        | false => simp [sanitizeGo, hd, hif, List.filter_cons, ih false]
        | true => simp [sanitizeGo, hd, hif, List.filter_cons, ih true]

theorem sanitizeGo_inserted (l : List String) :
    sanitizeGo false true l = l.filter (fun s => !(isDnsLine s)) := by
  induction l with
  | nil => rfl
  | cons line rest ih =>
    cases hd : isDnsLine line with
    | true => simp [sanitizeGo, hd, List.filter_cons, ih]
    | false => simp [sanitizeGo, hd, List.filter_cons, ih]

theorem sanitizeGo_noTable (l : List String) :
    sanitizeGo false false l = insert_after_interface (l.filter (fun s => !(isDnsLine s))) := by
  induction l with
  | nil => rfl
  | cons line rest ih =>
    cases hd : isDnsLine line with
    | true => simp [sanitizeGo, hd, List.filter_cons, ih]
    | false =>
      cases hif : (strTrim line == "[Interface]") with
      | true =>
        simp [sanitizeGo, hd, hif, List.filter_cons, insert_after_interface,
          sanitizeGo_inserted]
      | false =>
        simp [sanitizeGo, hd, hif, List.filter_cons, insert_after_interface, ih]

/-- Claim C3 (amended): sanitization never inserts when the content
already holds a normalized `table=off` directive, and otherwise inserts
a single `Table = off` line immediately after the first `[Interface]`
line of the DNS-stripped content (so no insertion happens when no
`[Interface]` line exists); in both cases the rest of the output is
exactly the input lines with the DNS directives removed. -/
theorem sanitize_table_insertion (content : List String) :
    sanitize_lines content =
      (if has_table_off content then content.filter (fun s => !(isDnsLine s))
       else insert_after_interface (content.filter (fun s => !(isDnsLine s)))) := by
  cases h : has_table_off content with
  | true => simp [sanitize_lines, h, sanitizeGo_hasTable]
  | false => simp [sanitize_lines, h, sanitizeGo_noTable]

/-- Claim C3, as frozen, is false on the code: a config that already
contains `Table=off` together with a DNS line is changed by sanitization
(the DNS line is removed), and a config with no Table directive and no
`[Interface]` line gets no `Table = off` insertion at all. -/
theorem sanitize_table_claim_cex :
    (sanitize_lines ["[Interface]", "Table=off", "DNS=1.2.3.4"]
       ≠ ["[Interface]", "Table=off", "DNS=1.2.3.4"])
    ∧ ((sanitize_lines ["Address=1.2.3.4/32"]).all
         (fun l => !(l == "Table = off")) = true) := by
  exact ⟨by decide, rfl⟩

/-- Claim C4: sanitization removes every DNS directive line from its
output, and extraction returns exactly the comma/whitespace separated
values of the DNS lines, in file order with each line's values in
order. -/
theorem sanitize_dns_removal_and_extraction (content : List String) :
    ((sanitize_lines content).all (fun l => !(isDnsLine l)) = true)
    ∧ extract_dns_servers content
        = (content.filter (fun l => isDnsLine l)).flatMap dnsLineValues := by
  constructor
  · exact sanitizeGo_all_not_dns (has_table_off content) content false
  · induction content with
    | nil => rfl
    | cons line rest ih =>
      cases hd : isDnsLine line with
      | true => simp [extract_dns_servers, hd, List.filter_cons, ih]
      | false => simp [extract_dns_servers, hd, List.filter_cons, ih]

theorem foldl_nameserver (l : List String) : ∀ acc : String,
    l.foldl (fun a s => a ++ ("nameserver " ++ s ++ "\n")) acc
      = acc ++ nameserverBlock l := by
  induction l with
  | nil => intro acc; simp [nameserverBlock, strAppend_empty]
  | cons s rest ih =>
    intro acc
    simp only [List.foldl_cons, nameserverBlock]
    rw [ih, strAppend_assoc, strAppend_assoc]

/-- Claim C9: the namespace resolver file contains exactly one
`nameserver` line per extracted DNS server, in extraction order, and for
an empty server list exactly the two fixed public fallback resolvers. -/
theorem resolv_conf_characterization (dns : List String) :
    resolv_conf_content dns
      = nameserverBlock (if dns.isEmpty then ["1.1.1.1", "8.8.8.8"] else dns) := by
  cases dns with
  | nil => rfl
  | cons s rest =>
    show (s :: rest).foldl (fun a t => a ++ ("nameserver " ++ t ++ "\n")) ""
        = nameserverBlock (s :: rest)
    rw [foldl_nameserver]
    rfl

/-! ### Lemmas about the helper lifecycle -/

theorem bind_run {α β : Type} (x : HelperM α) (f : α → HelperM β) (s : ExecState) :
    (x >>= f) s = match x s with
      | (Except.ok a, s') => f a s'
      | (Except.error e, s') => (Except.error e, s') := rfl

/-- The rollback, from any state and for any oracle, succeeds and appends
exactly the fixed rollback action list. -/
theorem rollbackM_run (o : Oracle) (prev : String) (s : ExecState) :
    rollbackM o prev s = (Except.ok (), ⟨s.idx + 11, s.trace ++ rollbackActions prev⟩) := by
  simp [rollbackM, cleanup_best_effortM, cleanup_dnsM, run_cmdM, bind_run, best, act,
    rollbackActions]

/-- Claim C1 (amended): whenever `enable` reaches its transactional body
and some step of the body fails, `enable` returns that step's original
error — for every failure pattern of the rollback steps, so rollback
failures are swallowed and never replace it — and before returning it
appends exactly the fixed rollback sequence to the trace: best-effort
veth-link delete, namespace delete, resolver-file removal (twice),
restore of the IP-forwarding flag to its pre-enable value, deletion of
the two FORWARD accept rules and the NAT masquerade rule, and tunnel
down.  The mangle mark rule, the policy-routing rule and the dedicated
table route are not removed even when they were attempted. -/
theorem enable_rollback_on_body_failure (o : Oracle) (cfgPath : String)
    (content : List String) (prev e : String) (s' : ExecState)
    (h0 : o 0 = none) (h1 : o 1 = none) (h2 : o 2 = none) (h3 : o 3 = none)
    (h4 : o 4 = none) (h5 : o 5 = none) (h6 : o 6 = none)
    (hb : enableBody o cfgPath content prev ⟨9, enableSetupTrace content⟩
            = (Except.error e, s')) :
    enable o true cfgPath content prev ⟨0, []⟩ =
      (Except.error e, ⟨s'.idx + 11, s'.trace ++ rollbackActions prev⟩) := by
  simp only [enableSetupTrace] at hb
  simp [enable, bind_run, best, act, run_cmdM, hcatch, h0, h1, h2, h3, h4, h5, h6, hb,
    rollbackM_run, hthrow]

/-- Witness for C1: with the oracle failing the very first body step,
`enable` returns that error and the trace is the setup actions, the
failed namespace creation, then the whole rollback sequence. -/
theorem enable_rollback_on_body_failure_witness :
    enable oracleFailNsAdd true "/etc/wireguard/wg0.conf" cexEnableContent "0" ⟨0, []⟩
      = (Except.error "ip netns add failed",
         ⟨21, enableSetupTrace cexEnableContent
               ++ [Action.cmd "ip" ["netns", "add", NS_NAME]]
               ++ rollbackActions "0"⟩) := by
  have h := enable_rollback_on_body_failure oracleFailNsAdd "/etc/wireguard/wg0.conf"
    cexEnableContent "0" "ip netns add failed"
    ⟨10, enableSetupTrace cexEnableContent ++ [Action.cmd "ip" ["netns", "add", NS_NAME]]⟩
    rfl rfl rfl rfl rfl rfl rfl (by rfl)
  simpa using h

/-- Claim C1, as frozen, is false on the code: when the body fails at the
session-persistence step, the mangle MARK rule had been attempted during
that run, yet no action of the whole run deletes a mangle rule, a policy
rule, or a table route — the rollback omits those removals. -/
theorem enable_rollback_claim_cex :
    ((enable oracleFailPersist true "/etc/wireguard/wg0.conf" cexEnableContent "0"
        ⟨0, []⟩).1 = Except.error "state write failed")
    ∧ ((enable oracleFailPersist true "/etc/wireguard/wg0.conf" cexEnableContent "0"
        ⟨0, []⟩).2.trace.contains
          (Action.cmd "iptables" ["-t", "mangle", "-A", "PREROUTING", "-i", "svpn0",
            "-j", "MARK", "--set-mark", "0x51"]) = true)
    ∧ ((enable oracleFailPersist true "/etc/wireguard/wg0.conf" cexEnableContent "0"
        ⟨0, []⟩).2.trace.all (fun a =>
          match a with
          | Action.cmd p args =>
              (!(p == "iptables" && args.contains "-D" && args.contains "mangle"))
              && (!(p == "ip" && args.contains "rule" && args.contains "del"))
              && (!(p == "ip" && args.contains "route" && args.contains "del"))
          | _ => true) = true) :=
  ⟨rfl, rfl, rfl⟩

/-- Claim C2: with a persisted session, every removal step of `disable`
is best-effort — the run always reaches the forwarding-flag restore and
its outcome is decided solely by that restore (position 11): it returns
that step's error when the restore fails and success otherwise, for
every failure pattern of the removal steps. -/
theorem disable_propagates_only_ip_forward_restore (o : Oracle) (st : HelperState) :
    disable o (Except.ok st) ⟨0, []⟩ =
      (match o 11 with
       | none => (Except.ok (), ⟨13, disableBase st ++ [Action.removeStateFile]⟩)
       | some e => (Except.error e, ⟨12, disableBase st⟩)) := by
  cases h : o 11 with
  | none => simp [disable, cleanup_best_effortM, cleanup_dnsM, run_cmdM, bind_run, best,
      act, disableBase, h]
  | some e => simp [disable, cleanup_best_effortM, cleanup_dnsM, run_cmdM, bind_run, best,
      act, disableBase, h]

/-- Claim C8: with no persisted session, `disable` succeeds for every
failure pattern and attempts exactly the fixed best-effort cleanup of
the veth link, the namespace, and the resolver file. -/
theorem disable_without_session_succeeds (o : Oracle) (e : String) :
    disable o (Except.error e) ⟨0, []⟩ = (Except.ok (), ⟨4, cleanupActions⟩) := by
  simp [disable, cleanup_best_effortM, cleanup_dnsM, run_cmdM, bind_run, best, act,
    cleanupActions]

/-- Claim C10: when the state file cannot be read or parsed, `disable`
behaves exactly as with no session: success, best-effort removal of only
the fixed veth link, namespace and resolver file, and in particular no
forwarding-flag write, no iptables or tunnel-down invocation, and no
state-file removal (the unreadable file is left in place). -/
theorem disable_unreadable_state_acts_as_no_session (o : Oracle) (e : String) :
    (disable o (Except.error e) ⟨0, []⟩
      = (Except.ok (), ⟨4, [Action.cmd "ip" ["link", "del", VETH_HOST],
          Action.cmd "ip" ["netns", "del", NS_NAME],
          Action.removeResolv, Action.removeNetnsDir]⟩))
    ∧ ((disable o (Except.error e) ⟨0, []⟩).2.trace.all (fun a =>
        match a with
        | Action.writeIpForward _ => false
        | Action.removeStateFile => false
        | Action.cmd p _ => (!(p == "wg-quick")) && (!(p == "iptables"))
        | _ => true) = true) := by
  have h : disable o (Except.error e) ⟨0, []⟩
      = (Except.ok (), ⟨4, [Action.cmd "ip" ["link", "del", VETH_HOST],
          Action.cmd "ip" ["netns", "del", NS_NAME],
          Action.removeResolv, Action.removeNetnsDir]⟩) := by
    simp [disable, cleanup_best_effortM, cleanup_dnsM, run_cmdM, bind_run, best, act]
  refine ⟨h, ?_⟩
  rw [h]
  rfl

/-! ### Lemmas about environment filtering -/

theorem parse_env_pair_allowed (pair : String) (kv : String × String)
    (h : parse_env_pair pair = Except.ok (some kv)) : allowed_env_key kv.1 = true := by
  unfold parse_env_pair at h
  split at h
  · cases h
  · split at h
    · cases h
    next h2 =>
      cases h
      simpa using h2

theorem parse_run_args_allowed (args : List String) (bins0 : List String)
    (envs0 : List (String × String)) :
    ∀ (bins : List String) (envs : List (String × String)),
    envs0.all (fun kv => allowed_env_key kv.1) = true →
    parse_run_args args bins0 envs0 = Except.ok (bins, envs) →
    envs.all (fun kv => allowed_env_key kv.1) = true := by
  induction args, bins0, envs0 using parse_run_args.induct with
  | case1 bins1 envs1 =>
    intro bins envs henv hp
    simp only [parse_run_args, Except.ok.injEq, Prod.mk.injEq] at hp
    obtain ⟨-, rfl⟩ := hp
    exact henv
  | case2 arg bins1 envs1 hb =>
    intro bins envs henv hp
    simp [parse_run_args, hb] at hp
  | case3 arg bins1 envs1 hb v rest ih =>
    intro bins envs henv hp
    simp only [parse_run_args, hb, if_pos] at hp
    exact ih bins envs henv hp
  | case4 arg bins1 envs1 hb he =>
    intro bins envs henv hp
    simp [parse_run_args, hb, he] at hp
  | case5 arg bins1 envs1 hb he pair rest e hpair =>
    intro bins envs henv hp
    simp [parse_run_args, hb, he, hpair] at hp
  | case6 arg bins1 envs1 hb he pair rest hpair ih =>
    intro bins envs henv hp
    simp only [parse_run_args, hb, he, hpair] at hp
    exact ih bins envs henv hp
  | case7 arg bins1 envs1 hb he pair rest kv hpair ih =>
    intro bins envs henv hp
    simp only [parse_run_args, hb, he, hpair] at hp
    refine ih bins envs ?_ hp
    have hk := parse_env_pair_allowed pair kv hpair
    simp [List.all_append, henv, hk]
  | case8 arg rest bins1 envs1 hb he =>
    intro bins envs henv hp
    unfold parse_run_args at hp
    rw [if_neg hb, if_neg he] at hp
    cases hp

theorem upsertEnv_all (P : String × String → Bool) (k v : String) :
    ∀ (l : List (String × String)), l.all P = true → P (k, v) = true →
    (upsertEnv l k v).all P = true := by
  intro l
  induction l with
  | nil => intro _ hkv; simpa [upsertEnv] using hkv
  | cons kv0 rest ih =>
    intro hl hkv
    simp only [List.all_cons, Bool.and_eq_true] at hl
    cases hk : (kv0.1 == k) with
    | true => simp [upsertEnv, hk, hkv, hl.2]
    | false => simp [upsertEnv, hk, hl.1, ih hl.2 hkv]

theorem spawned_env_all (Q : String × String → Bool)
    (envs : List (String × String)) :
    ∀ acc : List (String × String),
    envs.all Q = true → acc.all Q = true →
    (envs.foldl (fun acc kv => upsertEnv acc kv.1 kv.2) acc).all Q = true := by
  induction envs with
  | nil => intro acc _ hacc; simpa using hacc
  | cons kv rest ih =>
    intro acc henvs hacc
    simp only [List.all_cons, Bool.and_eq_true] at henvs
    simp only [List.foldl_cons]
    exact ih _ henvs.2 (upsertEnv_all Q kv.1 kv.2 acc hacc henvs.1)

theorem helperEnv_keys_contained (helperEnv : List (String × String)) :
    helperEnv.all (fun kv =>
      allowed_env_key kv.1 || (helperEnv.map Prod.fst).contains kv.1) = true := by
  rw [List.all_eq_true]
  intro kv hkv
  have hm : kv.1 ∈ helperEnv.map Prod.fst := List.mem_map_of_mem Prod.fst hkv
  simp [List.contains, hm]

/-- Claim C7 (amended): every `--env` pair that the `run` argument loop
forwards to the launcher has an allow-listed key (pairs with other keys
are dropped), so every variable of the launched process's environment
either has an allow-listed key or was already present in the helper
process's own inherited environment.  Variables of the helper's own
environment are inherited by the child, not discarded. -/
theorem run_env_allowlist (args : List String) (helperEnv : List (String × String))
    (bins : List String) (envs : List (String × String))
    (h : parse_run_args args [] [] = Except.ok (bins, envs)) :
    (envs.all (fun kv => allowed_env_key kv.1) = true)
    ∧ ((spawned_env helperEnv envs).all
        (fun kv => allowed_env_key kv.1 || (helperEnv.map Prod.fst).contains kv.1)
          = true) := by
  have henv := parse_run_args_allowed args [] [] bins envs rfl h
  refine ⟨henv, ?_⟩
  refine spawned_env_all _ envs helperEnv ?_ (helperEnv_keys_contained helperEnv)
  rw [List.all_eq_true] at henv ⊢
  intro kv hkv
  simp [henv kv hkv]

/-- Witness for C7: a run request forwarding `HOME` and a non-allow-listed
`SECRET`; the parse keeps only `HOME`, and with a helper environment of
`PATH` and `PKEXEC_UID` every spawned variable is allow-listed or
inherited. -/
theorem run_env_allowlist_witness :
    (parse_run_args ["--env", "HOME=/root", "--env", "SECRET=x", "--bin", "/bin/sh"] [] []
       = Except.ok (["/bin/sh"], [("HOME", "/root")]))
    ∧ (([("HOME", "/root")] : List (String × String)).all
        (fun kv => allowed_env_key kv.1) = true)
    ∧ ((spawned_env [("PATH", "/usr/bin"), ("PKEXEC_UID", "1000")]
          [("HOME", "/root")]).all
        (fun kv => allowed_env_key kv.1
          || (([("PATH", "/usr/bin"), ("PKEXEC_UID", "1000")]
                : List (String × String)).map Prod.fst).contains kv.1) = true) := by
  refine ⟨rfl, ?_, ?_⟩
  · exact (run_env_allowlist ["--env", "HOME=/root", "--env", "SECRET=x", "--bin", "/bin/sh"]
      [("PATH", "/usr/bin"), ("PKEXEC_UID", "1000")] ["/bin/sh"] [("HOME", "/root")] rfl).1
  · exact (run_env_allowlist ["--env", "HOME=/root", "--env", "SECRET=x", "--bin", "/bin/sh"]
      [("PATH", "/usr/bin"), ("PKEXEC_UID", "1000")] ["/bin/sh"] [("HOME", "/root")] rfl).2

/-- Claim C7, as frozen, is false on the code: `run_in_namespace` never
clears the inherited environment, so a helper-environment variable such
as `PKEXEC_UID` — present in every pkexec invocation and not on the
allow-list — is part of the launched process's environment even when no
`--env` pair is given at all. -/
theorem run_env_claim_cex :
    (parse_run_args ["--bin", "/usr/bin/foo"] [] []
       = Except.ok (["/usr/bin/foo"], []))
    ∧ (spawned_env [("PKEXEC_UID", "1000")] [] = [("PKEXEC_UID", "1000")])
    ∧ (allowed_env_key "PKEXEC_UID" = false) :=
  ⟨rfl, rfl, rfl⟩

/-! ### Lemmas about the process locator -/

theorem process_in_namespace_beq (p : ProcEntry) (ino : Nat) :
    process_in_namespace p ino = (p.netns == some ino) := by
  unfold process_in_namespace
  cases p.netns with
  | none => rfl
  | some i => rfl

theorem runningLoop_filter (ino : Nat) (t b lb : String) (procs : List ProcEntry) :
    runningLoop ino t b lb procs
      = runningLoop ino t b lb (procs.filter (fun p => p.netns == some ino)) := by
  induction procs with
  | nil => rfl
  | cons p rest ih =>
    cases hn : (p.netns == some ino) with
    | false =>
      have hin : process_in_namespace p ino = false := by
        rw [process_in_namespace_beq, hn]
      cases hnum : isNumericName p.dirName with
      | false => simp [runningLoop, hnum, List.filter_cons, hn, ih]
      | true => simp [runningLoop, hnum, hin, List.filter_cons, hn, ih]
    | true =>
      have hin : process_in_namespace p ino = true := by
        rw [process_in_namespace_beq, hn]
      cases hnum : isNumericName p.dirName with
      | false => simp [runningLoop, hnum, List.filter_cons, hn, ih]
      | true => simp [runningLoop, hnum, hin, List.filter_cons, hn, ih]

theorem collectPids_filter (ino : Nat) (t b lb : String) (procs : List ProcEntry) :
    collectPids ino t b lb procs
      = collectPids ino t b lb (procs.filter (fun p => p.netns == some ino)) := by
  induction procs with
  | nil => rfl
  | cons p rest ih =>
    cases hn : (p.netns == some ino) with
    | false =>
      have hin : process_in_namespace p ino = false := by
        rw [process_in_namespace_beq, hn]
      cases hnum : isNumericName p.dirName with
      | false => simp [collectPids, hnum, List.filter_cons, hn, ih]
      | true =>
        cases hp : parse_i32 p.dirName with
        | none => simp [collectPids, hnum, hp, List.filter_cons, hn, ih]
        | some pid =>
          cases hm : process_matches_path p t b lb with
          | false => simp [collectPids, hnum, hp, hm, List.filter_cons, hn, ih]
          | true => simp [collectPids, hnum, hp, hm, hin, List.filter_cons, hn, ih]
    | true =>
      have hin : process_in_namespace p ino = true := by
        rw [process_in_namespace_beq, hn]
      cases hnum : isNumericName p.dirName with
      | false => simp [collectPids, hnum, List.filter_cons, hn, ih]
      | true =>
        cases hp : parse_i32 p.dirName with
        | none => simp [collectPids, hnum, hp, List.filter_cons, hn, ih]
        | some pid =>
          cases hm : process_matches_path p t b lb with
          | false => simp [collectPids, hnum, hp, hm, List.filter_cons, hn, ih]
          | true => simp [collectPids, hnum, hp, hm, hin, List.filter_cons, hn, ih]

theorem collectPids_eq_filterMap (ino : Nat) (t b lb : String) (procs : List ProcEntry) :
    collectPids ino t b lb procs = procs.filterMap (fun p =>
      if isNumericName p.dirName && process_matches_path p t b lb
          && process_in_namespace p ino
      then parse_i32 p.dirName else none) := by
  induction procs with
  | nil => rfl
  | cons p rest ih =>
    cases hnum : isNumericName p.dirName with
    | false => simp [collectPids, hnum, List.filterMap_cons, ih]
    | true =>
      cases hp : parse_i32 p.dirName with
      | none =>
        cases hm : process_matches_path p t b lb <;>
          cases hin : process_in_namespace p ino <;>
            simp [collectPids, hnum, hp, hm, hin, List.filterMap_cons, ih]
      | some pid =>
        cases hm : process_matches_path p t b lb <;>
          cases hin : process_in_namespace p ino <;>
            simp [collectPids, hnum, hp, hm, hin, List.filterMap_cons, ih]

/-- Claim C5: the locator's answers are insensitive to every process
whose net-namespace inode differs from the resolved one — dropping all
such processes changes neither `isRunning` nor `killAll` (so a
path-matching process in another namespace is neither reported, nor
signalled, nor counted) — and when the namespace mount entry does not
exist, `isRunning` answers `false` and `killAll` answers zero kills,
without error and without even consulting the target path. -/
theorem locator_namespace_scoping (ino : Nat) (target : String)
    (procs : List ProcEntry) (alive : Nat → Bool) :
    (is_app_running_in_namespace (Except.ok (some ino)) (Except.ok target) procs
       = is_app_running_in_namespace (Except.ok (some ino)) (Except.ok target)
           (procs.filter (fun p => p.netns == some ino)))
    ∧ (kill_by_path_in_namespace (Except.ok (some ino)) (Except.ok target) procs alive
       = kill_by_path_in_namespace (Except.ok (some ino)) (Except.ok target)
           (procs.filter (fun p => p.netns == some ino)) alive)
    ∧ (∀ canon : Except String String,
        is_app_running_in_namespace (Except.ok none) canon procs = Except.ok false)
    ∧ (∀ canon : Except String String,
        kill_by_path_in_namespace (Except.ok none) canon procs alive
          = Except.ok ⟨0, [], []⟩) := by
  refine ⟨?_, ?_, fun canon => rfl, fun canon => rfl⟩
  · simp only [is_app_running_in_namespace]
    rw [runningLoop_filter]
  · simp only [kill_by_path_in_namespace]
    rw [collectPids_filter]

/-- Claim C6: `killAll` sends the graceful signal to exactly the pids of
the matched in-namespace processes, sends the forceful signal to exactly
those of them still alive after the grace period (none when all exited),
and returns the count of originally matched pids regardless of which
signal stopped them. -/
theorem kill_all_signal_discipline (ino : Nat) (target : String)
    (procs : List ProcEntry) (alive : Nat → Bool) :
    kill_by_path_in_namespace (Except.ok (some ino)) (Except.ok target) procs alive
      = Except.ok ⟨(killCandidates ino target procs).length,
                   killCandidates ino target procs,
                   (killCandidates ino target procs).filter alive⟩ := by
  have hc : collectPids ino target (targetBaseOf target)
      (strLower (targetBaseOf target)) procs = killCandidates ino target procs :=
    collectPids_eq_filterMap ino target (targetBaseOf target)
      (strLower (targetBaseOf target)) procs
  simp only [kill_by_path_in_namespace, hc]
  cases hk : killCandidates ino target procs with
  | nil => rfl
  | cons pid rest => rfl

end SillyVPN
